import Mathlib

/-!
Verification of the node-factory layer of ANGLE's shader translator
(`src/compiler/translator/tree_util/IntermNode_util.cpp`), shallowly embedded
in Lean 4.  The type descriptor (`TType`), IR node hierarchy, symbol table and
function-lookup collaborators live outside the provided source file; they are
modelled from the spec's description of their contracts (clone-then-modify
type mutation, arena-allocated symbols with fresh identities, mangled names
derived from the function name and argument types). All logic of
`IntermNode_util.cpp` itself is transcribed directly from the source.
Fatal assertions (`ASSERT`) are modelled by returning `none`.
-/

namespace AngleIntermNodeUtil

/-- Basic type tags of the shading language (`TBasicType`).  The real enum has
many more members (samplers, images, ...); `EbtSampler2D` and
`EbtAtomicCounter` stand in for the tags that are neither scalar-zeroable nor
`void`/struct, which all take the same default path in `CreateZeroNode`. -/
inductive TBasicType : Type where
  | EbtFloat
  | EbtInt
  | EbtUInt
  | EbtBool
  | EbtVoid
  | EbtStruct
  | EbtSampler2D
  | EbtAtomicCounter
deriving DecidableEq, Repr

/-- Precision qualifiers (`TPrecision`). -/
inductive TPrecision : Type where
  | EbpUndefined
  | EbpLow
  | EbpMedium
  | EbpHigh
deriving DecidableEq, Repr

/-- Storage qualifiers (`TQualifier`); the members relevant to the node
factory plus representatives of the rest. -/
inductive TQualifier : Type where
  | EvqTemporary
  | EvqGlobal
  | EvqConst
  | EvqUniform
  | EvqAttribute
  | EvqVertexOut
deriving DecidableEq, Repr

mutual

/-- Modelled from the spec: the Type Descriptor — basic kind, precision,
qualifier, primary/secondary component sizes, array dimensions (outermost
dimension first) and, for struct kind, the ordered field list.  `TType`
itself is implemented outside the provided source file; the spec describes it
as an immutable value description whose mutation is always
clone-then-modify. -/
inductive TType : Type where
  | mk (basicType : TBasicType) (precision : TPrecision) (qualifier : TQualifier)
       (primarySize : Nat) (secondarySize : Nat)
       (arraySizes : List Nat)
       (fields : TFieldList) : TType

/-- Modelled from the spec: an ordered struct field list; each field carries
its name and its type (`TFieldList` / `TField`). -/
inductive TFieldList : Type where
  | nil : TFieldList
  | cons (name : String) (fieldType : TType) (rest : TFieldList) : TFieldList

end

deriving instance DecidableEq for TType
deriving instance Repr for TType

/-- Basic type tag of a type (`TType::getBasicType`). -/
def TType.getBasicType : TType → TBasicType
  | .mk b _ _ _ _ _ _ => b

/-- Precision of a type (`TType::getPrecision`). -/
def TType.getPrecision : TType → TPrecision
  | .mk _ p _ _ _ _ _ => p

/-- Qualifier of a type (`TType::getQualifier`). -/
def TType.getQualifier : TType → TQualifier
  | .mk _ _ q _ _ _ _ => q

/-- Primary size (vector size / matrix columns) of a type. -/
def TType.primarySize : TType → Nat
  | .mk _ _ _ ps _ _ _ => ps

/-- Secondary size (matrix rows, 1 otherwise) of a type. -/
def TType.secondarySize : TType → Nat
  | .mk _ _ _ _ ss _ _ => ss

/-- Array dimensions of a type, outermost first. -/
def TType.arraySizes : TType → List Nat
  | .mk _ _ _ _ _ sizes _ => sizes

/-- Struct fields of a type, in declaration order (empty for non-structs). -/
def TType.fields : TType → TFieldList
  | .mk _ _ _ _ _ _ fs => fs

/-- Number of fields in a field list. -/
def TFieldList.length : TFieldList → Nat
  | .nil => 0
  | .cons _ _ rest => 1 + rest.length

/-- Types of the fields of a field list, in declaration order. -/
def TFieldList.types : TFieldList → List TType
  | .nil => []
  | .cons _ t rest => t :: rest.types

/-- Modelled from the spec: clone-then-modify qualifier update
(`TType::setQualifier` applied to a fresh copy, as in `TType constType(type);
constType.setQualifier(EvqConst)`). -/
def TType.setQualifier : TType → TQualifier → TType
  | .mk b p _ ps ss sizes fs, q => .mk b p q ps ss sizes fs

/-- Whether the type is an array (`TType::isArray`): it has at least one
array dimension. -/
def TType.isArray (t : TType) : Bool :=
  !t.arraySizes.isEmpty

/-- Outermost array dimension (`TType::getOutermostArraySize`); only
meaningful on arrays. -/
def TType.getOutermostArraySize (t : TType) : Nat :=
  t.arraySizes.headD 0

/-- Modelled from the spec: `TType::toArrayElementType` removes the outermost
array dimension. -/
def TType.toArrayElementType : TType → TType
  | .mk b p q ps ss sizes fs => .mk b p q ps ss sizes.tail fs

/-- Result of the `while (constType.isArray()) constType.toArrayElementType();`
loop in `CreateZeroNode`: all array dimensions removed. -/
def TType.stripArrays : TType → TType
  | .mk b p q ps ss _ fs => .mk b p q ps ss [] fs

/-- Modelled from the spec: `TType::getObjectSize`, the flattened
scalar-component count — primary times secondary size, times the product of
all array dimensions. -/
def TType.getObjectSize (t : TType) : Nat :=
  t.arraySizes.foldl (fun acc s => acc * s) (t.primarySize * t.secondarySize)

mutual

/-- Structural depth of a type: a measure that strictly decreases from an
array type to its element type, from any array type to its array-stripped
form, and from a struct type to each of its field types.  Used as the
termination measure of `CreateZeroNode`. -/
def TType.depth : TType → Nat
  | .mk _ _ _ _ _ sizes fs => 1 + sizes.length + TFieldList.depth fs

/-- Depth of a field list: strictly larger than the depth of every field type
it contains. -/
def TFieldList.depth : TFieldList → Nat
  | .nil => 0
  | .cons _ t rest => 1 + max (TType.depth t) (TFieldList.depth rest)

end

/-- Scalar constant slot (`TConstantUnion`): one of the four scalar payloads
set by `setFConst` / `setIConst` / `setUConst` / `setBConst`. -/
inductive TConstantUnion : Type where
  | fconst (v : Float)
  | iconst (v : Int)
  | uconst (v : Nat)
  | bconst (v : Bool)

/-- Source location metadata carried by every IR node (`TSourceLoc`). -/
structure TSourceLoc : Type where
  first_file : Int
  first_line : Int
  last_file : Int
  last_line : Int
deriving DecidableEq, Repr

/-- Source location a freshly constructed node carries before `setLine` is
called. -/
def loc0 : TSourceLoc := ⟨0, 0, 0, 0⟩

/-- Symbol-kind tag (`SymbolType`): distinguishes compiler-internal
temporaries from user-declared and built-in symbols. -/
inductive SymbolType : Type where
  | BuiltIn
  | UserDefined
  | AngleInternal
  | Empty
deriving DecidableEq, Repr

/-- Modelled from the spec: a Variable Symbol — possibly anonymous, with a
Type Descriptor, a symbol-kind tag, and the arena-assigned unique identity
that makes two sequential allocations distinct (`TVariable` /
`TSymbol::uniqueId`). -/
structure TVariable : Type where
  uniqueId : Nat
  name : String
  type : TType
  symbolType : SymbolType
deriving DecidableEq, Repr

/-- Operator tags (`TOperator`).  `EOpCallBuiltInFunction` is the generic-call
tag; `EOpSin` and `EOpRadians` stand in for the concrete primitive unary
operations; the rest are the tags used by the node factory itself. -/
inductive TOperator : Type where
  | EOpNull
  | EOpCallBuiltInFunction
  | EOpSin
  | EOpRadians
  | EOpInitialize
  | EOpAssign
  | EOpConstruct
deriving DecidableEq, Repr

/-- Modelled from the spec: a Function Symbol — a resolved built-in with its
return type and its primitive-operator tag (`TFunction::getBuiltInOp`;
`EOpCallBuiltInFunction` means "no primitive operation, generic call"). -/
structure TFunction : Type where
  name : String
  returnType : TType
  builtInOp : TOperator
deriving DecidableEq, Repr

/-- A symbol stored in the symbol table (`TSymbol`): either a variable or a
function. -/
inductive TSymbol : Type where
  | var (v : TVariable)
  | func (f : TFunction)
deriving DecidableEq, Repr

/-- Whether a symbol is a function (`TSymbol::isFunction`). -/
def TSymbol.isFunction : TSymbol → Bool
  | .var _ => false
  | .func _ => true

/-- Modelled from the spec: a mangled built-in signature is derived from the
function name together with the ordered static types of the arguments
(`TFunctionLookup::GetMangledName`); we model it as exactly that pair. -/
structure MangledName : Type where
  name : String
  argTypes : List TType

/-- Modelled from the spec: the Symbol Table — resolves built-ins by mangled
name gated by shader version, and owns the arena whose counter hands out
fresh unique ids for newly created symbols (`TSymbolTable`). -/
structure TSymbolTable : Type where
  findBuiltIn : MangledName → Int → Option TSymbol
  nextUniqueId : Nat

/-- Intermediate-representation tree nodes (`TIntermNode` and its
subclasses).  Every constructor's first argument is the node's source
location (`TIntermNode::mLine`, zero-initialized on construction).
`aggregate` covers both constructor calls and built-in function calls
(`TIntermAggregate`), carrying the operator, the function (for built-in
calls), the node's type and the argument sequence. -/
inductive TIntermNode : Type where
  | constantUnion (line : TSourceLoc) (values : List TConstantUnion) (type : TType)
  | aggregate (line : TSourceLoc) (op : TOperator) (fn : Option TFunction)
              (type : TType) (args : List TIntermNode)
  | unary (line : TSourceLoc) (op : TOperator) (operand : TIntermNode) (fn : TFunction)
  | binary (line : TSourceLoc) (op : TOperator) (left : TIntermNode) (right : TIntermNode)
  | symbol (line : TSourceLoc) (v : TVariable)
  | block (line : TSourceLoc) (statements : List TIntermNode)
  | declaration (line : TSourceLoc) (declarators : List TIntermNode)
  | functionPrototype (line : TSourceLoc) (fn : TFunction)
  | functionDefinition (line : TSourceLoc) (prototype : TIntermNode) (body : TIntermNode)

/-- Source location of a node (`TIntermNode::getLine`). -/
def TIntermNode.getLine : TIntermNode → TSourceLoc
  | .constantUnion l _ _ => l
  | .aggregate l _ _ _ _ => l
  | .unary l _ _ _ => l
  | .binary l _ _ _ => l
  | .symbol l _ => l
  | .block l _ => l
  | .declaration l _ => l
  | .functionPrototype l _ => l
  | .functionDefinition l _ _ => l

/-- Downcast to a block node (`TIntermNode::getAsBlock`): the node itself
when it is a block, null otherwise. -/
def TIntermNode.getAsBlock : TIntermNode → Option TIntermNode
  | .block l stmts => some (.block l stmts)
  | _ => none

/-- The void type used as the placeholder result type of untyped nodes. -/
def voidType : TType := .mk .EbtVoid .EbpUndefined .EvqTemporary 1 1 [] .nil

/-- Modelled from the spec: the static type of a node
(`TIntermTyped::getType`).  Constants, aggregates and symbols carry their
type; a unary built-in operation takes its function's return type; the
initialize/assign binary nodes built here take the left operand's type;
untyped nodes (blocks, declarations, function definitions) answer the
placeholder void type — in C++ they are not `TIntermTyped` at all and cannot
be asked. -/
def TIntermNode.getType : TIntermNode → TType
  | .constantUnion _ _ t => t
  | .aggregate _ _ _ t _ => t
  | .unary _ _ _ fn => fn.returnType
  | .binary _ _ l _ => l.getType
  | .symbol _ v => v.type
  | .block _ _ => voidType
  | .declaration _ _ => voidType
  | .functionPrototype _ fn => fn.returnType
  | .functionDefinition _ _ _ => voidType

namespace TIntermAggregate

/-- Modelled from the spec: `TIntermAggregate::CreateConstructor` — a
constructor-call aggregate of the given type over the given arguments. -/
def CreateConstructor (type : TType) (arguments : List TIntermNode) : TIntermNode :=
  .aggregate loc0 .EOpConstruct none type arguments

/-- Modelled from the spec: `TIntermAggregate::CreateBuiltInFunctionCall` — a
generic built-in call aggregate over all the arguments, order preserved,
typed by the resolved function's return type. -/
def CreateBuiltInFunctionCall (func : TFunction) (arguments : List TIntermNode) :
    TIntermNode :=
  .aggregate loc0 .EOpCallBuiltInFunction (some func) func.returnType arguments

end TIntermAggregate

/-- Zero value for one scalar slot, per basic kind: the body of the `switch`
in `CreateZeroNode` (0.0 float, 0 int, 0u uint, false bool, and the
deliberate `setIConst(42)` sentinel for every other basic type, reached only
during error recovery). -/
def zeroConstant : TBasicType → TConstantUnion
  | .EbtFloat => .fconst 0.0
  | .EbtInt => .iconst 0
  | .EbtUInt => .uconst 0
  | .EbtBool => .bconst false
  | _ => .iconst 42

theorem TType.depth_mk (b : TBasicType) (p : TPrecision) (q : TQualifier)
    (ps ss : Nat) (sizes : List Nat) (fs : TFieldList) :
    (TType.mk b p q ps ss sizes fs).depth = 1 + sizes.length + fs.depth := by
  simp [TType.depth]

theorem TType.depth_setQualifier (t : TType) (q : TQualifier) :
    (t.setQualifier q).depth = t.depth := by
  cases t
  simp [TType.setQualifier, TType.depth_mk]

theorem TType.depth_stripArrays_lt (t : TType) (h : t.isArray = true) :
    t.stripArrays.depth < t.depth := by
  cases t with
  | mk b p q ps ss sizes fs =>
    simp [TType.isArray, TType.arraySizes, List.isEmpty_iff] at h
    cases sizes with
    | nil => exact absurd rfl h
    | cons a rest => simp [TType.stripArrays, TType.depth_mk]

theorem TType.depth_toArrayElementType_lt (t : TType) (h : t.isArray = true) :
    t.toArrayElementType.depth < t.depth := by
  cases t with
  | mk b p q ps ss sizes fs =>
    simp [TType.isArray, TType.arraySizes, List.isEmpty_iff] at h
    cases sizes with
    | nil => exact absurd rfl h
    | cons a rest => simp [TType.toArrayElementType, TType.depth_mk]

theorem TType.depth_fields_lt (t : TType) : t.fields.depth < t.depth := by
  cases t with
  | mk b p q ps ss sizes fs => simp [TType.fields, TType.depth_mk]

mutual

/-- Transcribed from `CreateZeroNode` in `IntermNode_util.cpp`: clone the
input type and mark it compile-time-constant; for a non-array non-struct
type emit a flat constant with one zeroed (or sentinel) slot per flattened
component; for a void array strip all array dimensions and recurse; for an
array emit a constructor call over the zero of the element type repeated
once per outermost-dimension element; for a struct emit a constructor call
over the zeros of the field types in declaration order. -/
def CreateZeroNode (type : TType) : TIntermNode :=
  let constType := type.setQualifier .EvqConst
  if _h1 : type.isArray = false ∧ type.getBasicType ≠ .EbtStruct then
    .constantUnion loc0
      (List.replicate constType.getObjectSize (zeroConstant type.getBasicType)) constType
  else if _h2 : type.getBasicType = .EbtVoid then
    CreateZeroNode constType.stripArrays
  else if _h3 : type.isArray = true then
    TIntermAggregate.CreateConstructor constType
      (List.replicate type.getOutermostArraySize (CreateZeroNode type.toArrayElementType))
  else
    TIntermAggregate.CreateConstructor constType (CreateZeroNodeFields type.fields)
termination_by type.depth
decreasing_by
  · have hq : ((type.setQualifier .EvqConst).stripArrays).depth = type.stripArrays.depth := by
      cases type
      simp [TType.setQualifier, TType.stripArrays, TType.depth_mk]
    rw [hq]
    apply TType.depth_stripArrays_lt
    rcases Bool.eq_false_or_eq_true type.isArray with htrue | hfalse
    · exact htrue
    · exact absurd ⟨hfalse, fun hs => by rw [_h2] at hs; cases hs⟩ _h1
  · exact TType.depth_toArrayElementType_lt type _h3
  · exact TType.depth_fields_lt type

/-- The `for (const auto &field : structure->fields())` loop of
`CreateZeroNode`: zero node of every field type, in declaration order. -/
def CreateZeroNodeFields : TFieldList → List TIntermNode
  | .nil => []
  | .cons _ t rest => CreateZeroNode t :: CreateZeroNodeFields rest
termination_by fs => fs.depth
decreasing_by
  · simp [TFieldList.depth]; omega
  · simp [TFieldList.depth]; omega

end

/-- Transcribed from `CreateIndexNode`: a single-slot integer constant of
type `TType(EbtInt, EbpUndefined, EvqConst, 1)`. -/
def CreateIndexNode (index : Int) : TIntermNode :=
  .constantUnion loc0 [.iconst index] (.mk .EbtInt .EbpUndefined .EvqConst 1 1 [] .nil)

/-- Transcribed from `CreateBoolNode`: a single-slot boolean constant of
type `TType(EbtBool, EbpUndefined, EvqConst, 1)`. -/
def CreateBoolNode (value : Bool) : TIntermNode :=
  .constantUnion loc0 [.bconst value] (.mk .EbtBool .EbpUndefined .EvqConst 1 1 [] .nil)

/-- Transcribed from the two-argument `CreateTempVariable`: a new anonymous
variable tagged `AngleInternal` with the given type, allocated in the symbol
table's arena (which hands out the next unique id and advances its
counter). -/
def CreateTempVariable (symbolTable : TSymbolTable) (type : TType) :
    TVariable × TSymbolTable :=
  (⟨symbolTable.nextUniqueId, "", type, .AngleInternal⟩,
   { symbolTable with nextUniqueId := symbolTable.nextUniqueId + 1 })

/-- Transcribed from the three-argument `CreateTempVariable` overload: reuse
the type as-is when its qualifier already matches, otherwise clone it with
the requested qualifier first. -/
def CreateTempVariableWithQualifier (symbolTable : TSymbolTable) (type : TType)
    (qualifier : TQualifier) : TVariable × TSymbolTable :=
  if type.getQualifier = qualifier then
    CreateTempVariable symbolTable type
  else
    CreateTempVariable symbolTable (type.setQualifier qualifier)

/-- Transcribed from `CreateTempSymbolNode`: wrap an internal-temporary
variable in a symbol reference node.  The two `ASSERT`s — the variable must
be tagged `AngleInternal` and its qualifier must be temporary, const or
global — are modelled by returning `none` when violated. -/
def CreateTempSymbolNode (tempVariable : TVariable) : Option TIntermNode :=
  if tempVariable.symbolType = .AngleInternal ∧
      (tempVariable.type.getQualifier = .EvqTemporary ∨
       tempVariable.type.getQualifier = .EvqConst ∨
       tempVariable.type.getQualifier = .EvqGlobal) then
    some (.symbol loc0 tempVariable)
  else
    none

/-- Transcribed from `CreateTempDeclarationNode`: a declaration with one bare
declarator referencing the temporary. -/
def CreateTempDeclarationNode (tempVariable : TVariable) : Option TIntermNode :=
  (CreateTempSymbolNode tempVariable).map fun s => .declaration loc0 [s]

/-- Transcribed from `CreateTempInitDeclarationNode`: a declaration whose
declarator is an `EOpInitialize` binary of the temporary's reference and the
initializer (the initializer is a value here, so the
`ASSERT(initializer != nullptr)` cannot fire). -/
def CreateTempInitDeclarationNode (tempVariable : TVariable)
    (initializer : TIntermNode) : Option TIntermNode :=
  (CreateTempSymbolNode tempVariable).map fun s =>
    .declaration loc0 [.binary loc0 .EOpInitialize s initializer]

/-- Transcribed from the type-taking `DeclareTempVariable` overload: create
the temporary with the requested qualifier and the bare declaration node for
it.  The symbol table is threaded explicitly; the declaration comes out
through `declarationOut` in C++. -/
def DeclareTempVariable (symbolTable : TSymbolTable) (type : TType)
    (qualifier : TQualifier) : Option (TVariable × TIntermNode × TSymbolTable) :=
  match CreateTempVariableWithQualifier symbolTable type qualifier with
  | (variable0, st) =>
    (CreateTempDeclarationNode variable0).map fun d => (variable0, d, st)

/-- Transcribed from the initializer-taking `DeclareTempVariable` overload:
the temporary's type is a clone of the initializer's type (re-qualified when
the requested qualifier differs), and the declaration initializes it. -/
def DeclareTempVariableWithInit (symbolTable : TSymbolTable)
    (initializer : TIntermNode) (qualifier : TQualifier) :
    Option (TVariable × TIntermNode × TSymbolTable) :=
  match CreateTempVariableWithQualifier symbolTable initializer.getType qualifier with
  | (variable0, st) =>
    (CreateTempInitDeclarationNode variable0 initializer).map fun d => (variable0, d, st)

/-- Transcribed from `EnsureBlock`: null in, null out; an input that already
is a block is returned unchanged; any other node is wrapped in a new
single-statement block that takes over the node's source location. -/
def EnsureBlock (node : Option TIntermNode) : Option TIntermNode :=
  match node with
  | none => none
  | some n =>
    match n.getAsBlock with
    | some blockNode => some blockNode
    | none => some (.block n.getLine [n])

/-- Modelled from the spec: `TFunctionLookup::GetMangledName` derives the
lookup key from the function name and the static types of the arguments. -/
def GetMangledName (name : String) (arguments : List TIntermNode) : MangledName :=
  ⟨name, arguments.map TIntermNode.getType⟩

/-- Transcribed from the anonymous-namespace `LookUpBuiltInFunction`: resolve
the mangled name against the symbol table at the given shader version.  A
missing symbol yields null; a symbol that is not a function trips the
`ASSERT(symbol->isFunction())`, also modelled as `none`. -/
def LookUpBuiltInFunction (name : String) (arguments : List TIntermNode)
    (symbolTable : TSymbolTable) (shaderVersion : Int) : Option TFunction :=
  match symbolTable.findBuiltIn (GetMangledName name arguments) shaderVersion with
  | some (.func f) => some f
  | some (.var _) => none
  | none => none

/-- Transcribed from `CreateBuiltInFunctionCallNode`: resolve the built-in
(`ASSERT(fn)` on failure, modelled as `none`); when the resolved function's
operator tag is a concrete operation and exactly one argument was given,
build a unary-operation node, otherwise a generic built-in call aggregate
over all the arguments. -/
def CreateBuiltInFunctionCallNode (name : String) (arguments : List TIntermNode)
    (symbolTable : TSymbolTable) (shaderVersion : Int) : Option TIntermNode :=
  match LookUpBuiltInFunction name arguments symbolTable shaderVersion with
  | none => none
  | some fn =>
    if fn.builtInOp ≠ .EOpCallBuiltInFunction ∧ arguments.length = 1 then
      match arguments with
      | a :: _ => some (.unary loc0 fn.builtInOp a fn)
      | [] => none
    else
      some (TIntermAggregate.CreateBuiltInFunctionCall fn arguments)

mutual

/-- Fuel-indexed transcription of `CreateZeroNode`: the same case analysis,
but every recursive call burns one unit of fuel and exhausted fuel yields
`none`.  Termination of the source recursion is the statement that some
finite fuel always suffices. -/
def CreateZeroNodeFuel : Nat → TType → Option TIntermNode
  | 0, _ => none
  | n + 1, type =>
    let constType := type.setQualifier .EvqConst
    if type.isArray = false ∧ type.getBasicType ≠ .EbtStruct then
      some (.constantUnion loc0
        (List.replicate constType.getObjectSize (zeroConstant type.getBasicType)) constType)
    else if type.getBasicType = .EbtVoid then
      CreateZeroNodeFuel n constType.stripArrays
    else if type.isArray = true then
      match CreateZeroNodeFuel n type.toArrayElementType with
      | none => none
      | some z =>
        some (TIntermAggregate.CreateConstructor constType
          (List.replicate type.getOutermostArraySize z))
    else
      match CreateZeroNodeFieldsFuel n type.fields with
      | none => none
      | some args => some (TIntermAggregate.CreateConstructor constType args)

/-- Fuel-indexed transcription of the struct-field loop of `CreateZeroNode`. -/
def CreateZeroNodeFieldsFuel : Nat → TFieldList → Option (List TIntermNode)
  | _, .nil => some []
  | n, .cons _ t rest =>
    match CreateZeroNodeFuel n t, CreateZeroNodeFieldsFuel n rest with
    | some z, some zs => some (z :: zs)
    | _, _ => none

end

/- Structural facts about the type-descriptor helpers, used throughout the
claim proofs. -/

theorem TType.getQualifier_setQualifier (t : TType) (q : TQualifier) :
    (t.setQualifier q).getQualifier = q := by
  cases t; rfl

theorem TType.getBasicType_setQualifier (t : TType) (q : TQualifier) :
    (t.setQualifier q).getBasicType = t.getBasicType := by
  cases t; rfl

theorem TType.arraySizes_setQualifier (t : TType) (q : TQualifier) :
    (t.setQualifier q).arraySizes = t.arraySizes := by
  cases t; rfl

theorem TType.isArray_setQualifier (t : TType) (q : TQualifier) :
    (t.setQualifier q).isArray = t.isArray := by
  cases t; rfl

theorem TType.fields_setQualifier (t : TType) (q : TQualifier) :
    (t.setQualifier q).fields = t.fields := by
  cases t; rfl

theorem TType.setQualifier_setQualifier (t : TType) (q q' : TQualifier) :
    ((t.setQualifier q).setQualifier q') = t.setQualifier q' := by
  cases t; rfl

theorem TType.setQualifier_self (t : TType) (q : TQualifier) (h : t.getQualifier = q) :
    t.setQualifier q = t := by
  cases t
  simp [TType.getQualifier] at h
  simp [TType.setQualifier, h]

theorem TType.stripArrays_setQualifier (t : TType) (q : TQualifier) :
    (t.setQualifier q).stripArrays = t.stripArrays.setQualifier q := by
  cases t; rfl

theorem TType.stripArrays_stripArrays (t : TType) :
    t.stripArrays.stripArrays = t.stripArrays := by
  cases t; rfl

theorem TType.getBasicType_stripArrays (t : TType) :
    t.stripArrays.getBasicType = t.getBasicType := by
  cases t; rfl

theorem TType.isArray_stripArrays (t : TType) :
    t.stripArrays.isArray = false := by
  cases t; rfl

theorem TType.stripArrays_of_not_array (t : TType) (h : t.isArray = false) :
    t.stripArrays = t := by
  cases t with
  | mk b p q ps ss sizes fs =>
    simp [TType.isArray, TType.arraySizes, List.isEmpty_iff] at h
    simp [TType.stripArrays, h]

theorem TType.getObjectSize_not_array (t : TType) (h : t.isArray = false) :
    t.getObjectSize = t.primarySize * t.secondarySize := by
  cases t with
  | mk b p q ps ss sizes fs =>
    simp [TType.isArray, TType.arraySizes, List.isEmpty_iff] at h
    simp [TType.getObjectSize, TType.arraySizes, TType.primarySize, TType.secondarySize, h]

theorem TFieldList.types_length : (fs : TFieldList) → fs.types.length = fs.length
  | .nil => rfl
  | .cons _ _ rest => by
      simp [TFieldList.types, TFieldList.length, TFieldList.types_length rest]
      omega

/- One-step branch characterizations of `CreateZeroNode`, proved from its
defining equation. -/

theorem CreateZeroNode_basic (t : TType) (harr : t.isArray = false)
    (hstruct : t.getBasicType ≠ .EbtStruct) :
    CreateZeroNode t = .constantUnion loc0
      (List.replicate (t.setQualifier .EvqConst).getObjectSize
        (zeroConstant t.getBasicType))
      (t.setQualifier .EvqConst) := by
  rw [CreateZeroNode.eq_def]
  simp [harr, hstruct]

theorem CreateZeroNode_voidArray (t : TType) (harr : t.isArray = true)
    (hv : t.getBasicType = .EbtVoid) :
    CreateZeroNode t = CreateZeroNode ((t.setQualifier .EvqConst).stripArrays) := by
  rw [CreateZeroNode.eq_def]
  simp [harr, hv]

theorem CreateZeroNode_array (t : TType) (harr : t.isArray = true)
    (hv : t.getBasicType ≠ .EbtVoid) :
    CreateZeroNode t = TIntermAggregate.CreateConstructor (t.setQualifier .EvqConst)
      (List.replicate t.getOutermostArraySize (CreateZeroNode t.toArrayElementType)) := by
  rw [CreateZeroNode.eq_def]
  simp [harr, hv]

theorem CreateZeroNode_struct (t : TType) (harr : t.isArray = false)
    (hs : t.getBasicType = .EbtStruct) :
    CreateZeroNode t = TIntermAggregate.CreateConstructor (t.setQualifier .EvqConst)
      (CreateZeroNodeFields t.fields) := by
  rw [CreateZeroNode.eq_def]
  simp [harr, hs]

theorem CreateZeroNodeFields_eq_map :
    (fs : TFieldList) → CreateZeroNodeFields fs = fs.types.map CreateZeroNode
  | .nil => by simp [CreateZeroNodeFields, TFieldList.types]
  | .cons n t rest => by
      rw [CreateZeroNodeFields]
      simp [TFieldList.types, CreateZeroNodeFields_eq_map rest]

end AngleIntermNodeUtil

namespace AngleIntermNodeUtil

theorem TType.depth_pos (t : TType) : 1 ≤ t.depth := by
  cases t
  simp [TType.depth_mk]
  omega

theorem TFieldList.depth_cons (n : String) (t : TType) (rest : TFieldList) :
    (TFieldList.cons n t rest).depth = 1 + max t.depth rest.depth := by
  simp [TFieldList.depth]

/-- Claim C10: `CreateZeroNode` terminates on every finite type descriptor —
whenever the fuel-indexed transcription `CreateZeroNodeFuel` is run with at
least `depth t` fuel (a finite quantity for every type), it completes without
exhausting its fuel and agrees with the recursive `CreateZeroNode`; the
recursion strictly descends the type structure, each recursive call fitting
in one less unit of fuel. -/
theorem zeroNode_terminates (t : TType) (n : Nat) (hn : t.depth ≤ n) :
    CreateZeroNodeFuel n t = some (CreateZeroNode t) := by
  revert n hn
  refine CreateZeroNode.induct
    (fun ty => ∀ n, ty.depth ≤ n → CreateZeroNodeFuel n ty = some (CreateZeroNode ty))
    (fun fs => ∀ n, fs.depth ≤ n →
      CreateZeroNodeFieldsFuel n fs = some (CreateZeroNodeFields fs))
    ?_ ?_ ?_ ?_ ?_ ?_ t
  · intro ty h n hn
    have h1 := TType.depth_pos ty
    cases n with
    | zero => omega
    | succ m =>
      rw [CreateZeroNode_basic ty h.1 h.2]
      simp [CreateZeroNodeFuel, h.1, h.2]
  · intro ty constType hn1 h2 ih n hn
    have harr : ty.isArray = true := by
      rcases Bool.eq_false_or_eq_true ty.isArray with htrue | hfalse
      · exact htrue
      · exact absurd ⟨hfalse, fun hs => by rw [h2] at hs; cases hs⟩ hn1
    have hdlt : constType.stripArrays.depth < ty.depth := by
      have hq : constType.stripArrays.depth = ty.stripArrays.depth := by
        show ((ty.setQualifier .EvqConst).stripArrays).depth = ty.stripArrays.depth
        rw [TType.stripArrays_setQualifier, TType.depth_setQualifier]
      rw [hq]
      exact TType.depth_stripArrays_lt ty harr
    cases n with
    | zero => have := TType.depth_pos ty; omega
    | succ m =>
      rw [CreateZeroNode_voidArray ty harr h2]
      have hfuel := ih m (by omega)
      simp only [CreateZeroNodeFuel]
      rw [if_neg hn1, if_pos h2]
      exact hfuel
  · intro ty hn1 h2 h3 ih n hn
    have hdlt := TType.depth_toArrayElementType_lt ty h3
    cases n with
    | zero => have := TType.depth_pos ty; omega
    | succ m =>
      rw [CreateZeroNode_array ty h3 h2]
      have hfuel := ih m (by omega)
      simp only [CreateZeroNodeFuel]
      rw [if_neg hn1, if_neg h2, if_pos h3, hfuel]
  · intro ty hn1 h2 h3 ih n hn
    have harr : ty.isArray = false := by
      rcases Bool.eq_false_or_eq_true ty.isArray with htrue | hfalse
      · exact absurd htrue h3
      · exact hfalse
    have hstruct : ty.getBasicType = .EbtStruct := by
      by_contra hne
      exact hn1 ⟨harr, hne⟩
    have hdlt := TType.depth_fields_lt ty
    cases n with
    | zero => have := TType.depth_pos ty; omega
    | succ m =>
      rw [CreateZeroNode_struct ty harr hstruct]
      have hfuel := ih m (by omega)
      simp only [CreateZeroNodeFuel]
      rw [if_neg hn1, if_neg h2, if_neg h3, hfuel]
  · intro n _
    simp [CreateZeroNodeFieldsFuel, CreateZeroNodeFields]
  · intro nm t rest ih1 ih2 n hn
    rw [TFieldList.depth_cons] at hn
    have hf1 := ih1 n (by omega)
    have hf2 := ih2 n (by omega)
    rw [CreateZeroNodeFields]
    simp [CreateZeroNodeFieldsFuel, hf1, hf2]

end AngleIntermNodeUtil

namespace AngleIntermNodeUtil

theorem TType.primarySize_setQualifier (t : TType) (q : TQualifier) :
    (t.setQualifier q).primarySize = t.primarySize := by
  cases t; rfl

theorem TType.secondarySize_setQualifier (t : TType) (q : TQualifier) :
    (t.setQualifier q).secondarySize = t.secondarySize := by
  cases t; rfl

/- Concrete type descriptors and symbols used to instantiate the theorems. -/

/-- A scalar highp float of temporary storage. -/
def floatT : TType := .mk .EbtFloat .EbpHigh .EvqTemporary 1 1 [] .nil

/-- A mediump 3-component float vector. -/
def vec3f : TType := .mk .EbtFloat .EbpMedium .EvqTemporary 3 1 [] .nil

/-- An array of two of `vec3f`. -/
def arr2vec3 : TType := .mk .EbtFloat .EbpMedium .EvqTemporary 3 1 [2] .nil

/-- The malformed "void declared as an array of two" type (error recovery
only). -/
def voidArr2 : TType := .mk .EbtVoid .EbpUndefined .EvqTemporary 1 1 [2] .nil

/-- A struct with a `vec3f` field and an `int` field. -/
def structAB : TType := .mk .EbtStruct .EbpUndefined .EvqTemporary 1 1 []
  (.cons "a" vec3f (.cons "b" (.mk .EbtInt .EbpHigh .EvqTemporary 1 1 [] .nil) .nil))

/-- An array of three of `structAB`'s field list — a nested array-of-struct
type. -/
def arrStruct : TType := .mk .EbtStruct .EbpUndefined .EvqTemporary 1 1 [3]
  (.cons "a" vec3f (.cons "b" (.mk .EbtInt .EbpHigh .EvqTemporary 1 1 [] .nil) .nil))

/-- Claim C1 (amended): `CreateZeroNode` never fails — it is total — and the
result's type is a clone of the input type with its qualifier set to
compile-time-constant, except when the input's basic type is void and it is
declared as an array, in which case all array dimensions are stripped from
the clone first. -/
theorem zeroNode_type_const_clone (t : TType) :
    (CreateZeroNode t).getType =
      (if t.getBasicType = .EbtVoid then t.stripArrays else t).setQualifier .EvqConst := by
  refine CreateZeroNode.induct
    (fun ty => (CreateZeroNode ty).getType =
      (if ty.getBasicType = .EbtVoid then ty.stripArrays else ty).setQualifier .EvqConst)
    (fun _ => True) ?_ ?_ ?_ ?_ trivial (fun _ _ _ _ _ => trivial) t
  · intro ty h
    rw [CreateZeroNode_basic ty h.1 h.2]
    by_cases hv : ty.getBasicType = .EbtVoid
    · rw [if_pos hv, TType.stripArrays_of_not_array ty h.1]; rfl
    · rw [if_neg hv]; rfl
  · intro ty constType hn1 h2 ih
    have harr : ty.isArray = true := by
      rcases Bool.eq_false_or_eq_true ty.isArray with htrue | hfalse
      · exact htrue
      · exact absurd ⟨hfalse, fun hs => by rw [h2] at hs; cases hs⟩ hn1
    have ih2 : (CreateZeroNode ((ty.setQualifier .EvqConst).stripArrays)).getType =
        (if ((ty.setQualifier .EvqConst).stripArrays).getBasicType = .EbtVoid
          then ((ty.setQualifier .EvqConst).stripArrays).stripArrays
          else (ty.setQualifier .EvqConst).stripArrays).setQualifier .EvqConst := ih
    rw [CreateZeroNode_voidArray ty harr h2, ih2]
    rw [if_pos (by rw [TType.getBasicType_stripArrays, TType.getBasicType_setQualifier]; exact h2)]
    rw [if_pos h2]
    simp [TType.stripArrays_setQualifier, TType.stripArrays_stripArrays,
      TType.setQualifier_setQualifier]
  · intro ty hn1 h2 h3 _
    rw [CreateZeroNode_array ty h3 h2, if_neg h2]
    rfl
  · intro ty hn1 h2 h3 _
    have harr : ty.isArray = false := by
      rcases Bool.eq_false_or_eq_true ty.isArray with htrue | hfalse
      · exact absurd htrue h3
      · exact hfalse
    have hstruct : ty.getBasicType = .EbtStruct := by
      by_contra hne
      exact hn1 ⟨harr, hne⟩
    rw [CreateZeroNode_struct ty harr hstruct, if_neg h2]
    rfl

/-- Claim C1, counterexample to the unamended statement: on the malformed
void-array type the result's type is not a clone of the input (the array
dimensions are gone), so "the type is always a clone of the input marked
compile-time-constant" fails on void arrays. -/
theorem zeroNode_type_const_clone_cex :
    (CreateZeroNode voidArr2).getType ≠ voidArr2.setQualifier .EvqConst := by
  have h1 : CreateZeroNode voidArr2 =
      CreateZeroNode ((voidArr2.setQualifier .EvqConst).stripArrays) :=
    CreateZeroNode_voidArray voidArr2 rfl rfl
  have h2 : CreateZeroNode ((voidArr2.setQualifier .EvqConst).stripArrays) =
      .constantUnion loc0
        (List.replicate (((voidArr2.setQualifier .EvqConst).stripArrays).setQualifier
            .EvqConst).getObjectSize
          (zeroConstant ((voidArr2.setQualifier .EvqConst).stripArrays).getBasicType))
        (((voidArr2.setQualifier .EvqConst).stripArrays).setQualifier .EvqConst) :=
    CreateZeroNode_basic _ rfl (by decide)
  rw [h1, h2]
  decide

/-- Claim C3: for every non-array, non-struct basic type whose kind is
float, int, uint or bool, `CreateZeroNode` yields a constant node of the
const-qualified clone of the type holding exactly primary-size times
secondary-size (the flattened component count) slots, each the zero of the
type's kind. -/
theorem zeroNode_scalar_components (t : TType) (harr : t.isArray = false)
    (hk : t.getBasicType = .EbtFloat ∨ t.getBasicType = .EbtInt ∨
      t.getBasicType = .EbtUInt ∨ t.getBasicType = .EbtBool) :
    CreateZeroNode t = .constantUnion loc0
      (List.replicate (t.primarySize * t.secondarySize) (zeroConstant t.getBasicType))
      (t.setQualifier .EvqConst) ∧
    (t.getBasicType = .EbtFloat → zeroConstant t.getBasicType = .fconst 0.0) ∧
    (t.getBasicType = .EbtInt → zeroConstant t.getBasicType = .iconst 0) ∧
    (t.getBasicType = .EbtUInt → zeroConstant t.getBasicType = .uconst 0) ∧
    (t.getBasicType = .EbtBool → zeroConstant t.getBasicType = .bconst false) := by
  have hstruct : t.getBasicType ≠ .EbtStruct := by
    rcases hk with h | h | h | h <;> simp [h]
  have hsize : (t.setQualifier .EvqConst).getObjectSize =
      t.primarySize * t.secondarySize := by
    rw [TType.getObjectSize_not_array _ (by rw [TType.isArray_setQualifier]; exact harr),
      TType.primarySize_setQualifier, TType.secondarySize_setQualifier]
  refine ⟨?_, ?_, ?_, ?_, ?_⟩
  · rw [CreateZeroNode_basic t harr hstruct, hsize]
  · intro h; rw [h]; rfl
  · intro h; rw [h]; rfl
  · intro h; rw [h]; rfl
  · intro h; rw [h]; rfl

/-- Claim C3, witness at the mediump float 3-vector. -/
theorem zeroNode_scalar_components_witness :
    vec3f.isArray = false ∧
    (vec3f.getBasicType = .EbtFloat ∨ vec3f.getBasicType = .EbtInt ∨
      vec3f.getBasicType = .EbtUInt ∨ vec3f.getBasicType = .EbtBool) ∧
    CreateZeroNode vec3f = .constantUnion loc0
      (List.replicate (vec3f.primarySize * vec3f.secondarySize)
        (zeroConstant vec3f.getBasicType))
      (vec3f.setQualifier .EvqConst) :=
  ⟨rfl, Or.inl rfl, (zeroNode_scalar_components vec3f rfl (Or.inl rfl)).1⟩

/-- Claim C4: for every non-void array type, `CreateZeroNode` yields a
constructor-call aggregate over the const-qualified clone whose arguments
are the zero node of the element type, repeated once per outermost-dimension
element — so exactly K arguments, each structurally equal to the element
type's zero node; nested dimensions are covered because the element type may
itself be an array. -/
theorem zeroNode_array_constructor (t : TType) (harr : t.isArray = true)
    (hv : t.getBasicType ≠ .EbtVoid) :
    CreateZeroNode t = TIntermAggregate.CreateConstructor (t.setQualifier .EvqConst)
      (List.replicate t.getOutermostArraySize (CreateZeroNode t.toArrayElementType)) ∧
    (List.replicate t.getOutermostArraySize (CreateZeroNode t.toArrayElementType)).length =
      t.getOutermostArraySize ∧
    ∀ a ∈ List.replicate t.getOutermostArraySize (CreateZeroNode t.toArrayElementType),
      a = CreateZeroNode t.toArrayElementType :=
  ⟨CreateZeroNode_array t harr hv, List.length_replicate _ _,
   fun _ ha => List.eq_of_mem_replicate ha⟩

/-- Claim C4, witness at the two-element array of float 3-vectors. -/
theorem zeroNode_array_constructor_witness :
    arr2vec3.isArray = true ∧ arr2vec3.getBasicType ≠ .EbtVoid ∧
    CreateZeroNode arr2vec3 =
      TIntermAggregate.CreateConstructor (arr2vec3.setQualifier .EvqConst)
        (List.replicate arr2vec3.getOutermostArraySize
          (CreateZeroNode arr2vec3.toArrayElementType)) :=
  ⟨rfl, by decide, (zeroNode_array_constructor arr2vec3 rfl (by decide)).1⟩

/-- Claim C5: for every non-array struct type, `CreateZeroNode` yields a
constructor-call aggregate over the const-qualified clone with one argument
per field, in declaration order, the i-th argument being the zero node of
the i-th field's type. -/
theorem zeroNode_struct_constructor (t : TType) (harr : t.isArray = false)
    (hs : t.getBasicType = .EbtStruct) :
    CreateZeroNode t = TIntermAggregate.CreateConstructor (t.setQualifier .EvqConst)
      (t.fields.types.map CreateZeroNode) ∧
    (t.fields.types.map CreateZeroNode).length = t.fields.length ∧
    ∀ i : Nat, (t.fields.types.map CreateZeroNode)[i]? =
      (t.fields.types[i]?).map CreateZeroNode := by
  refine ⟨?_, ?_, ?_⟩
  · rw [CreateZeroNode_struct t harr hs, CreateZeroNodeFields_eq_map]
  · rw [List.length_map, TFieldList.types_length]
  · intro i
    rw [List.getElem?_map]

/-- Claim C5, witness at the two-field struct. -/
theorem zeroNode_struct_constructor_witness :
    structAB.isArray = false ∧ structAB.getBasicType = .EbtStruct ∧
    CreateZeroNode structAB =
      TIntermAggregate.CreateConstructor (structAB.setQualifier .EvqConst)
        (structAB.fields.types.map CreateZeroNode) :=
  ⟨rfl, rfl, (zeroNode_struct_constructor structAB rfl rfl).1⟩

/-- Claim C10, witness at a nested array-of-struct type, run with exactly its
depth as fuel. -/
theorem zeroNode_terminates_witness :
    arrStruct.depth ≤ arrStruct.depth ∧
    CreateZeroNodeFuel arrStruct.depth arrStruct = some (CreateZeroNode arrStruct) :=
  ⟨Nat.le_refl _, zeroNode_terminates arrStruct arrStruct.depth (Nat.le_refl _)⟩

end AngleIntermNodeUtil

namespace AngleIntermNodeUtil

/-- Claim C7: `EnsureBlock` maps null to null, returns a block unchanged,
wraps any other node in a new single-statement block carrying the node's
source location, and is consequently idempotent on every input. -/
theorem ensureBlock_contract :
    EnsureBlock none = none ∧
    (∀ (l : TSourceLoc) (stmts : List TIntermNode),
      EnsureBlock (some (.block l stmts)) = some (.block l stmts)) ∧
    (∀ n : TIntermNode, n.getAsBlock = none →
      EnsureBlock (some n) = some (.block n.getLine [n])) ∧
    (∀ x : Option TIntermNode, EnsureBlock (EnsureBlock x) = EnsureBlock x) := by
  refine ⟨rfl, fun l stmts => rfl, fun n hn => ?_, fun x => ?_⟩
  · simp [EnsureBlock, hn]
  · rcases x with _ | n
    · rfl
    · cases n <;> rfl

/-- Claim C7, witness: a block is returned unchanged, a non-block constant is
wrapped once, and a second application changes nothing. -/
theorem ensureBlock_contract_witness :
    EnsureBlock (some (.block loc0 [])) = some (.block loc0 []) ∧
    (CreateBoolNode true).getAsBlock = none ∧
    EnsureBlock (some (CreateBoolNode true)) =
      some (.block (CreateBoolNode true).getLine [CreateBoolNode true]) ∧
    EnsureBlock (EnsureBlock (some (CreateBoolNode true))) =
      EnsureBlock (some (CreateBoolNode true)) :=
  ⟨ensureBlock_contract.2.1 loc0 [], rfl,
   ensureBlock_contract.2.2.1 (CreateBoolNode true) rfl,
   ensureBlock_contract.2.2.2 (some (CreateBoolNode true))⟩

/-- Claim C8: `CreateTempSymbolNode` trips its fatal assertions exactly when
the variable is not tagged internal-temporary or its type's qualifier is
outside temporary/const/global, and under that precondition it returns the
symbol reference node wrapping the variable. -/
theorem tempSymbolNode_assertion (v : TVariable) :
    (CreateTempSymbolNode v = none ↔
      (v.symbolType ≠ .AngleInternal ∨
        ¬(v.type.getQualifier = .EvqTemporary ∨ v.type.getQualifier = .EvqConst ∨
          v.type.getQualifier = .EvqGlobal))) ∧
    (v.symbolType = .AngleInternal →
      (v.type.getQualifier = .EvqTemporary ∨ v.type.getQualifier = .EvqConst ∨
        v.type.getQualifier = .EvqGlobal) →
      CreateTempSymbolNode v = some (.symbol loc0 v)) := by
  constructor
  · by_cases hc : v.symbolType = .AngleInternal ∧
        (v.type.getQualifier = .EvqTemporary ∨ v.type.getQualifier = .EvqConst ∨
          v.type.getQualifier = .EvqGlobal)
    · rw [CreateTempSymbolNode, if_pos hc]
      simp [hc.1, hc.2]
    · rw [CreateTempSymbolNode, if_neg hc]
      simp only [true_iff, eq_self_iff_true]
      tauto
  · intro h1 h2
    rw [CreateTempSymbolNode, if_pos ⟨h1, h2⟩]

/-- An internal temporary variable over the scalar float type. -/
def tempVar0 : TVariable := ⟨0, "", floatT, .AngleInternal⟩

/-- Claim C8, witness at a well-formed internal temporary. -/
theorem tempSymbolNode_assertion_witness :
    tempVar0.symbolType = .AngleInternal ∧
    (tempVar0.type.getQualifier = .EvqTemporary ∨
      tempVar0.type.getQualifier = .EvqConst ∨
      tempVar0.type.getQualifier = .EvqGlobal) ∧
    CreateTempSymbolNode tempVar0 = some (.symbol loc0 tempVar0) :=
  ⟨rfl, Or.inl rfl, (tempSymbolNode_assertion tempVar0).2 rfl (Or.inl rfl)⟩

/-- Claim C9: `CreateIndexNode` always yields a single-component int
constant, compile-time-constant, undefined precision, non-array, holding the
given value; `CreateBoolNode` is the bool analogue; both are total
functions. -/
theorem indexNode_boolNode (v : Int) (b : Bool) :
    (CreateIndexNode v).getType.getBasicType = .EbtInt ∧
    (CreateIndexNode v).getType.getQualifier = .EvqConst ∧
    (CreateIndexNode v).getType.getPrecision = .EbpUndefined ∧
    (CreateIndexNode v).getType.isArray = false ∧
    CreateIndexNode v = .constantUnion loc0 [.iconst v]
      (.mk .EbtInt .EbpUndefined .EvqConst 1 1 [] .nil) ∧
    (CreateBoolNode b).getType.getBasicType = .EbtBool ∧
    (CreateBoolNode b).getType.getQualifier = .EvqConst ∧
    (CreateBoolNode b).getType.getPrecision = .EbpUndefined ∧
    (CreateBoolNode b).getType.isArray = false ∧
    CreateBoolNode b = .constantUnion loc0 [.bconst b]
      (.mk .EbtBool .EbpUndefined .EvqConst 1 1 [] .nil) :=
  ⟨rfl, rfl, rfl, rfl, rfl, rfl, rfl, rfl, rfl, rfl⟩

/-- The sine built-in: a primitive unary operation. -/
def sinFn : TFunction := ⟨"sin", floatT, .EOpSin⟩

/-- A two-argument built-in resolved to the generic-call tag. -/
def atanFn : TFunction := ⟨"atan", floatT, .EOpCallBuiltInFunction⟩

/-- A symbol table resolving every signature to the sine function. -/
def sinTable : TSymbolTable := ⟨fun _ _ => some (.func sinFn), 0⟩

/-- A symbol table resolving every signature to the generic atan function. -/
def atanTable : TSymbolTable := ⟨fun _ _ => some (.func atanFn), 0⟩

/-- A symbol table with no built-ins, arena counter at 7. -/
def emptyTable : TSymbolTable := ⟨fun _ _ => none, 7⟩

/-- Claim C2: when the resolved built-in's operator tag is a concrete
primitive operation (not the generic-call tag) and exactly one argument was
given, `CreateBuiltInFunctionCallNode` yields the unary-operation node over
that operator, the argument and the resolved function; in every other case
it yields the generic built-in call aggregate over all the arguments, order
preserved. -/
theorem builtinCall_shape (name : String) (args : List TIntermNode)
    (st : TSymbolTable) (ver : Int) (fn : TFunction)
    (h : LookUpBuiltInFunction name args st ver = some fn) :
    (∀ a : TIntermNode, args = [a] → fn.builtInOp ≠ .EOpCallBuiltInFunction →
      CreateBuiltInFunctionCallNode name args st ver =
        some (.unary loc0 fn.builtInOp a fn)) ∧
    ((fn.builtInOp = .EOpCallBuiltInFunction ∨ args.length ≠ 1) →
      CreateBuiltInFunctionCallNode name args st ver =
        some (TIntermAggregate.CreateBuiltInFunctionCall fn args)) := by
  constructor
  · intro a ha hop
    subst ha
    rw [CreateBuiltInFunctionCallNode, h]
    simp [hop]
  · intro hcase
    have hcond : ¬(fn.builtInOp ≠ .EOpCallBuiltInFunction ∧ args.length = 1) := by
      rcases hcase with hop | hlen
      · exact fun hc => hc.1 hop
      · exact fun hc => hlen hc.2
    rw [CreateBuiltInFunctionCallNode, h]
    simp only [if_neg hcond]

/-- Claim C2, witness: a one-argument primitive-operator call becomes a unary
node, and a two-argument generic call becomes an aggregate with both
arguments in order. -/
theorem builtinCall_shape_witness :
    LookUpBuiltInFunction "sin" [CreateBoolNode true] sinTable 300 = some sinFn ∧
    sinFn.builtInOp ≠ .EOpCallBuiltInFunction ∧
    CreateBuiltInFunctionCallNode "sin" [CreateBoolNode true] sinTable 300 =
      some (.unary loc0 sinFn.builtInOp (CreateBoolNode true) sinFn) ∧
    LookUpBuiltInFunction "atan" [CreateBoolNode true, CreateBoolNode false]
      atanTable 300 = some atanFn ∧
    CreateBuiltInFunctionCallNode "atan" [CreateBoolNode true, CreateBoolNode false]
      atanTable 300 =
      some (TIntermAggregate.CreateBuiltInFunctionCall atanFn
        [CreateBoolNode true, CreateBoolNode false]) :=
  ⟨rfl, by decide,
   (builtinCall_shape "sin" [CreateBoolNode true] sinTable 300 sinFn rfl).1
     (CreateBoolNode true) rfl (by decide),
   rfl,
   (builtinCall_shape "atan" [CreateBoolNode true, CreateBoolNode false] atanTable 300
     atanFn rfl).2 (Or.inl rfl)⟩

theorem CreateTempVariableWithQualifier_eq (st : TSymbolTable) (t : TType)
    (q : TQualifier) :
    CreateTempVariableWithQualifier st t q =
      (⟨st.nextUniqueId, "", t.setQualifier q, .AngleInternal⟩,
       { st with nextUniqueId := st.nextUniqueId + 1 }) := by
  rw [CreateTempVariableWithQualifier]
  by_cases hqt : t.getQualifier = q
  · rw [if_pos hqt, CreateTempVariable, TType.setQualifier_self t q hqt]
  · rw [if_neg hqt, CreateTempVariable]

end AngleIntermNodeUtil

namespace AngleIntermNodeUtil

/-- Claim C6 (amended): for a qualifier in the temporary/const/global set
accepted by `CreateTempSymbolNode`, the type-taking `DeclareTempVariable`
returns a fresh anonymous internal-temporary whose type is the given type
re-qualified to the requested qualifier, together with a bare declaration
node referencing it; the initializer-taking overload returns a variable
whose type is the initializer's type re-qualified to the requested qualifier
(equal to the initializer's type exactly when the qualifier already
matches), together with an initializing declaration node. -/
theorem declareTemp_contract (st : TSymbolTable) (t : TType) (q : TQualifier)
    (init : TIntermNode)
    (hq : q = .EvqTemporary ∨ q = .EvqConst ∨ q = .EvqGlobal) :
    (∃ v d st2, DeclareTempVariable st t q = some (v, d, st2) ∧
      v.symbolType = .AngleInternal ∧ v.name = "" ∧
      v.type = t.setQualifier q ∧ v.type.getQualifier = q ∧
      v.uniqueId = st.nextUniqueId ∧ st2.nextUniqueId = st.nextUniqueId + 1 ∧
      d = .declaration loc0 [.symbol loc0 v]) ∧
    (∃ v d st2, DeclareTempVariableWithInit st init q = some (v, d, st2) ∧
      v.symbolType = .AngleInternal ∧ v.name = "" ∧
      v.type = init.getType.setQualifier q ∧
      v.uniqueId = st.nextUniqueId ∧ st2.nextUniqueId = st.nextUniqueId + 1 ∧
      d = .declaration loc0 [.binary loc0 .EOpInitialize (.symbol loc0 v) init]) := by
  have hsym : ∀ ty : TType,
      CreateTempSymbolNode ⟨st.nextUniqueId, "", ty.setQualifier q, .AngleInternal⟩ =
        some (.symbol loc0 ⟨st.nextUniqueId, "", ty.setQualifier q, .AngleInternal⟩) := by
    intro ty
    rw [CreateTempSymbolNode, if_pos]
    refine ⟨rfl, ?_⟩
    show (ty.setQualifier q).getQualifier = _ ∨ (ty.setQualifier q).getQualifier = _ ∨
      (ty.setQualifier q).getQualifier = _
    rw [TType.getQualifier_setQualifier]
    exact hq
  constructor
  · refine ⟨⟨st.nextUniqueId, "", t.setQualifier q, .AngleInternal⟩,
      .declaration loc0 [.symbol loc0 ⟨st.nextUniqueId, "", t.setQualifier q,
        .AngleInternal⟩],
      { st with nextUniqueId := st.nextUniqueId + 1 }, ?_, rfl, rfl, rfl,
      TType.getQualifier_setQualifier t q, rfl, rfl, rfl⟩
    simp [DeclareTempVariable, CreateTempVariableWithQualifier_eq,
      CreateTempDeclarationNode, hsym t]
  · refine ⟨⟨st.nextUniqueId, "", init.getType.setQualifier q, .AngleInternal⟩,
      .declaration loc0 [.binary loc0 .EOpInitialize
        (.symbol loc0 ⟨st.nextUniqueId, "", init.getType.setQualifier q,
          .AngleInternal⟩) init],
      { st with nextUniqueId := st.nextUniqueId + 1 }, ?_, rfl, rfl, rfl, rfl, rfl, rfl⟩
    simp [DeclareTempVariableWithInit, CreateTempVariableWithQualifier_eq,
      CreateTempInitDeclarationNode, hsym init.getType]

/-- Claim C6, counterexample to the unamended statement: initializing a
temporary-qualified variable from a compile-time-constant int literal gives
the variable a type that differs from the initializer's type (the qualifier
was rewritten), so "a Variable whose type equals the initializer's type"
fails. -/
theorem declareTemp_contract_cex :
    ((DeclareTempVariableWithInit emptyTable (CreateIndexNode 5) .EvqTemporary).map
      fun r => r.1.type) ≠ some (CreateIndexNode 5).getType := by
  decide

/-- Claim C6, witness at the empty table, the scalar float type, the
temporary qualifier and an int-literal initializer. -/
theorem declareTemp_contract_witness :
    ((.EvqTemporary : TQualifier) = .EvqTemporary ∨
      (.EvqTemporary : TQualifier) = .EvqConst ∨
      (.EvqTemporary : TQualifier) = .EvqGlobal) ∧
    ((∃ v d st2, DeclareTempVariable emptyTable floatT .EvqTemporary = some (v, d, st2) ∧
      v.symbolType = .AngleInternal ∧ v.name = "" ∧
      v.type = floatT.setQualifier .EvqTemporary ∧
      v.type.getQualifier = .EvqTemporary ∧
      v.uniqueId = emptyTable.nextUniqueId ∧
      st2.nextUniqueId = emptyTable.nextUniqueId + 1 ∧
      d = .declaration loc0 [.symbol loc0 v]) ∧
    (∃ v d st2, DeclareTempVariableWithInit emptyTable (CreateIndexNode 5)
        .EvqTemporary = some (v, d, st2) ∧
      v.symbolType = .AngleInternal ∧ v.name = "" ∧
      v.type = (CreateIndexNode 5).getType.setQualifier .EvqTemporary ∧
      v.uniqueId = emptyTable.nextUniqueId ∧
      st2.nextUniqueId = emptyTable.nextUniqueId + 1 ∧
      d = .declaration loc0 [.binary loc0 .EOpInitialize (.symbol loc0 v)
        (CreateIndexNode 5)])) :=
  ⟨Or.inl rfl,
   declareTemp_contract emptyTable floatT .EvqTemporary (CreateIndexNode 5) (Or.inl rfl)⟩

end AngleIntermNodeUtil
